import Mathlib

/-!
Verification of the conversation session manager of a client-side chat UI.

The source is three browser scripts: a chat controller (in-memory
`chatHistory` array, localStorage persistence under the key `chatHistory`,
a waiting-state guard around a `fetch` to `/api/chat`), an FAQ form
(one-shot GET to `/api/faq`), and a diagnostics-tool form. This file embeds
the chat controller and the FAQ form shallowly: JSON values are an inductive
type with integer numerals, the platform's `JSON.stringify`/`JSON.parse`
pair is modelled by an executable serializer and parser over `List Char`,
DOM state (button disabled flag, typing indicator, rendered message list,
input field, the localStorage slot) is an explicit record, and the async
handler is split at its single `await` point into a synchronous start
function and a synchronous resolution function taking the network outcome.
-/

/-- JSON values as produced by `JSON.parse`. Numbers are modelled as
integers (the scripts never compute with numerics, and every number a
claim exercises is integral); objects are ordered field lists, as emitted
by `JSON.stringify` over JavaScript objects. -/
inductive Json where
  | null : Json
  | bool (b : Bool) : Json
  | num (n : Int) : Json
  | str (s : String) : Json
  | arr (elems : List Json) : Json
  | obj (fields : List (String × Json)) : Json

/-- A JavaScript expression value as it flows through the scripts: either
`undefined` (a missing property) or a JSON value. -/
inductive JsVal where
  | undefined : JsVal
  | json (j : Json) : JsVal

/-- Property access `v[key]` on a parsed JSON value, as JavaScript resolves
it: reading any property of `null` throws (callers match on `null` before
using this), objects yield the last binding of the key (later duplicate
keys shadow earlier ones in JavaScript object construction), and every
other value — primitives and arrays — yields `undefined` for these
non-index keys. -/
def jsProp (j : Json) (key : String) : JsVal :=
  match j with
  | .obj fields =>
    match fields.reverse.lookup key with
    | some v => .json v
    | none => .undefined
  | _ => .undefined

/-- JavaScript truthiness of a value, used by `errorData.detail || ...` in
the FAQ handler. -/
def jsTruthy : JsVal → Bool
  | .undefined => false
  | .json .null => false
  | .json (.bool b) => b
  | .json (.num n) => n != 0
  | .json (.str s) => s != ""
  | .json (.arr _) => true
  | .json (.obj _) => true

mutual

/-- JavaScript `String(value)` coercion for parsed JSON values, used when a
non-string `detail` field is passed to `new Error(...)`. Arrays join their
elements with commas, `null` elements joining as the empty string. -/
def jsJsonToString : Json → String
  | .null => "null"
  | .bool true => "true"
  | .bool false => "false"
  | .num n => toString n
  | .str s => s
  | .arr xs => jsJoinElems xs
  | .obj _ => "[object Object]"
termination_by structural j => j

/-- Comma-join of array elements under `String(...)` coercion; `null`
elements join as the empty string. -/
def jsJoinElems : List Json → String
  | [] => ""
  | .null :: rest => jsJoinRest rest
  | j :: rest => jsJsonToString j ++ jsJoinRest rest
termination_by structural l => l

/-- Elements after the first, each preceded by a comma. -/
def jsJoinRest : List Json → String
  | [] => ""
  | .null :: rest => "," ++ jsJoinRest rest
  | j :: rest => "," ++ jsJsonToString j ++ jsJoinRest rest
termination_by structural l => l

end

/-- String coercion of a possibly-`undefined` value. -/
def jsToString : JsVal → String
  | .undefined => "undefined"
  | .json j => jsJsonToString j

/-- One entry of the `chatHistory` array: a `{role, content}` record. Both
fields are JavaScript values because loaded history and destructured
response fields can be `undefined`; the controller itself only ever stores
string roles. -/
structure Message where
  role : JsVal
  content : JsVal

/-- The `user` role tag as the controller writes it. -/
def userRole : JsVal := .json (.str "user")

/-- The `assistant` role tag as the controller writes it. -/
def assistantRole : JsVal := .json (.str "assistant")

/-- The `error` role tag as passed to `renderMessage` on the failure path. -/
def errorRole : JsVal := .json (.str "error")

/-- Whether a message carries the `user` or `assistant` role — the
subsequence the spec says is sent to the backend. -/
def Message.isUserOrAssistant (m : Message) : Bool :=
  match m.role with
  | .json (.str s) => s == "user" || s == "assistant"
  | _ => false

/-- Whitespace trimming as `String.prototype.trim` applies it to the chat
input and the FAQ `mcp-server` field (modelled for the ASCII whitespace
class; the scripts only ever meet spaces, tabs and newlines). -/
def jsWsChar (c : Char) : Bool :=
  c = ' ' || c = '\t' || c = '\n' || c = '\r' || c = '\x0b' || c = '\x0c'

/-- Drop leading JavaScript whitespace. -/
def dropLeadingWs : List Char → List Char
  | [] => []
  | c :: rest => if jsWsChar c then dropLeadingWs rest else c :: rest

/-- The `value.trim()` call of the handlers. -/
def jsTrim (s : String) : String :=
  String.mk ((dropLeadingWs ((dropLeadingWs s.data.reverse).reverse)))

/-!
The `JSON.stringify` model. `saveHistoryToLocalStorage` calls
`JSON.stringify(chatHistory)` with no spacing argument, so the output is
compact: no whitespace, object fields in insertion order, `undefined`
properties dropped. String escaping follows the JSON quoting algorithm:
quote, backslash and the named control escapes get two-character escapes,
the remaining control characters get `\u00` plus two lowercase hex digits,
everything else is emitted verbatim.
-/

/-- One lowercase hexadecimal digit. -/
def hexDigitChar (n : Nat) : Char :=
  if n < 10 then Char.ofNat (48 + n) else Char.ofNat (87 + n)

/-- The escape sequence (or verbatim character) a string character
contributes inside a JSON quoted string. -/
def escChar (c : Char) : List Char :=
  if c = '"' then ['\\', '"']
  else if c = '\\' then ['\\', '\\']
  else if c = '\x08' then ['\\', 'b']
  else if c = '\t' then ['\\', 't']
  else if c = '\n' then ['\\', 'n']
  else if c = '\x0c' then ['\\', 'f']
  else if c = '\r' then ['\\', 'r']
  else if c.toNat < 32 then
    ['\\', 'u', '0', '0', hexDigitChar (c.toNat / 16), hexDigitChar (c.toNat % 16)]
  else [c]

/-- Escape a whole string body. -/
def escString : List Char → List Char
  | [] => []
  | c :: rest => escChar c ++ escString rest

/-- One decimal digit character. -/
def digitChar (n : Nat) : Char := Char.ofNat (48 + n)

/-- Decimal digits of a positive number, most significant first; fuel-driven
so the definition is structurally recursive and kernel-reducible. -/
def natCharsAux : Nat → Nat → List Char
  | 0, _ => []
  | _ + 1, 0 => []
  | fuel + 1, n + 1 => natCharsAux fuel ((n + 1) / 10) ++ [digitChar ((n + 1) % 10)]

/-- Decimal notation of a natural number, as `Number.prototype.toString`
renders the integral numbers the scripts meet. -/
def natChars (m : Nat) : List Char :=
  if m = 0 then ['0'] else natCharsAux m m

/-- Decimal notation of an integer. -/
def intChars (n : Int) : List Char :=
  if n < 0 then '-' :: natChars n.natAbs else natChars n.toNat

mutual

/-- Compact `JSON.stringify` output, as `saveHistoryToLocalStorage` and the
request-body construction produce it. -/
def Json.stringifyChars : Json → List Char
  | .null => "null".data
  | .bool true => "true".data
  | .bool false => "false".data
  | .num n => intChars n
  | .str s => '"' :: (escString s.data ++ ['"'])
  | .arr xs => '[' :: (stringifyArrItems xs ++ [']'])
  | .obj fs => '{' :: (stringifyObjItems fs ++ ['}'])
termination_by structural j => j

/-- Comma-separated array elements: the first element followed by the
comma-preceded tail. -/
def stringifyArrItems : List Json → List Char
  | [] => []
  | j :: rest => Json.stringifyChars j ++ stringifyArrRest rest
termination_by structural l => l

/-- Array elements after the first, each preceded by a comma. -/
def stringifyArrRest : List Json → List Char
  | [] => []
  | j :: rest => ',' :: (Json.stringifyChars j ++ stringifyArrRest rest)
termination_by structural l => l

/-- Comma-separated object fields, each a quoted key, a colon and a value. -/
def stringifyObjItems : List (String × Json) → List Char
  | [] => []
  | (k, v) :: rest =>
    '"' :: (escString k.data ++ ['"']) ++ ':' :: (Json.stringifyChars v ++ stringifyObjRest rest)
termination_by structural l => l

/-- Object fields after the first, each preceded by a comma. -/
def stringifyObjRest : List (String × Json) → List Char
  | [] => []
  | (k, v) :: rest =>
    ',' :: '"' :: (escString k.data ++ ['"']) ++ ':' :: (Json.stringifyChars v ++ stringifyObjRest rest)
termination_by structural l => l

end

/-- `JSON.stringify(value)` as a string. -/
def Json.stringify (j : Json) : String := String.mk j.stringifyChars

/-!
The `JSON.parse` model: a recursive-descent parser over the character
list, returning `none` where the platform parser throws a `SyntaxError`.
JSON whitespace is skipped around tokens; strings accept the quoted
escapes (named ones, `\/`, and `\uXXXX` for non-surrogate code points) and
reject raw control characters; numbers are parsed as the integers the
serializer emits (the scripts never feed fractional numerals to any path a
claim touches). The parser is fuel-driven, the fuel decreasing once per
nested value or list step, so the definition is structurally recursive.
-/

/-- JSON whitespace. -/
def wsChar (c : Char) : Bool :=
  c = ' ' || c = '\t' || c = '\n' || c = '\r'

/-- Skip leading JSON whitespace. -/
def skipWs : List Char → List Char
  | [] => []
  | c :: rest => if wsChar c then skipWs rest else c :: rest

/-- Value of a hexadecimal digit character, either case. -/
def hexVal (c : Char) : Option Nat :=
  if '0' ≤ c ∧ c ≤ '9' then some (c.toNat - 48)
  else if 'a' ≤ c ∧ c ≤ 'f' then some (c.toNat - 87)
  else if 'A' ≤ c ∧ c ≤ 'F' then some (c.toNat - 55)
  else none

/-- Parse the body of a quoted string after the opening quote, returning
the decoded characters and the input after the closing quote. -/
def parseStringBody : List Char → Option (List Char × List Char)
  | [] => none
  | c :: rest =>
    if c = '"' then some ([], rest)
    else if c = '\\' then
      match rest with
      | [] => none
      | e :: rest2 =>
        if e = '"' then (parseStringBody rest2).map fun p => ('"' :: p.1, p.2)
        else if e = '\\' then (parseStringBody rest2).map fun p => ('\\' :: p.1, p.2)
        else if e = '/' then (parseStringBody rest2).map fun p => ('/' :: p.1, p.2)
        else if e = 'b' then (parseStringBody rest2).map fun p => ('\x08' :: p.1, p.2)
        else if e = 'f' then (parseStringBody rest2).map fun p => ('\x0c' :: p.1, p.2)
        else if e = 'n' then (parseStringBody rest2).map fun p => ('\n' :: p.1, p.2)
        else if e = 'r' then (parseStringBody rest2).map fun p => ('\r' :: p.1, p.2)
        else if e = 't' then (parseStringBody rest2).map fun p => ('\t' :: p.1, p.2)
        else if e = 'u' then
          match rest2 with
          | h1 :: h2 :: h3 :: h4 :: rest3 =>
            match hexVal h1, hexVal h2, hexVal h3, hexVal h4 with
            | some a, some b, some c2, some d =>
              let n := 4096 * a + 256 * b + 16 * c2 + d
              if 55296 ≤ n ∧ n ≤ 57343 then none
              else (parseStringBody rest3).map fun p => (Char.ofNat n :: p.1, p.2)
            | _, _, _, _ => none
          | _ => none
        else none
    else if c.toNat < 32 then none
    else (parseStringBody rest).map fun p => (c :: p.1, p.2)

/-- Consume a run of decimal digits, most significant first. -/
def goDigits (acc : Nat) : List Char → Nat × List Char
  | [] => (acc, [])
  | c :: rest =>
    if c.isDigit then goDigits (10 * acc + (c.toNat - 48)) rest else (acc, c :: rest)

/-- Parse at least one decimal digit into a natural number. -/
def parseDigits (cs : List Char) : Option (Nat × List Char) :=
  match cs with
  | [] => none
  | c :: _ => if c.isDigit then some (goDigits 0 cs) else none

/-- Consume an expected keyword tail. -/
def dropLit : List Char → List Char → Option (List Char)
  | [], cs => some cs
  | _ :: _, [] => none
  | l :: ls, c :: cs => if c = l then dropLit ls cs else none

mutual

/-- Parse one JSON value off the front of the input. -/
def parseVal : Nat → List Char → Option (Json × List Char)
  | 0, _ => none
  | fuel + 1, cs =>
    match skipWs cs with
    | [] => none
    | c :: rest =>
      if c = 'n' then (dropLit ['u', 'l', 'l'] rest).map fun r => (.null, r)
      else if c = 't' then (dropLit ['r', 'u', 'e'] rest).map fun r => (.bool true, r)
      else if c = 'f' then (dropLit ['a', 'l', 's', 'e'] rest).map fun r => (.bool false, r)
      else if c = '"' then (parseStringBody rest).map fun p => (.str (String.mk p.1), p.2)
      else if c = '[' then
        match skipWs rest with
        | [] => none
        | c2 :: rest2 =>
          if c2 = ']' then some (.arr [], rest2)
          else (parseItems fuel (c2 :: rest2)).map fun p => (.arr p.1, p.2)
      else if c = '{' then
        match skipWs rest with
        | [] => none
        | c2 :: rest2 =>
          if c2 = '}' then some (.obj [], rest2)
          else (parseFields fuel (c2 :: rest2)).map fun p => (.obj p.1, p.2)
      else if c = '-' then (parseDigits rest).map fun p => (.num (-(p.1 : Int)), p.2)
      else if c.isDigit then (parseDigits (c :: rest)).map fun p => (.num (p.1 : Int), p.2)
      else none
termination_by structural fuel => fuel

/-- Parse the elements of a non-empty array up to and through the closing
bracket. -/
def parseItems : Nat → List Char → Option (List Json × List Char)
  | 0, _ => none
  | fuel + 1, cs =>
    match parseVal fuel cs with
    | none => none
    | some (j, rest) =>
      match skipWs rest with
      | [] => none
      | c :: rest2 =>
        if c = ',' then (parseItems fuel rest2).map fun p => (j :: p.1, p.2)
        else if c = ']' then some ([j], rest2)
        else none
termination_by structural fuel => fuel

/-- Parse the fields of a non-empty object up to and through the closing
brace. -/
def parseFields : Nat → List Char → Option (List (String × Json) × List Char)
  | 0, _ => none
  | fuel + 1, cs =>
    match skipWs cs with
    | [] => none
    | c :: rest =>
      if c = '"' then
        match parseStringBody rest with
        | none => none
        | some (k, rest1) =>
          match skipWs rest1 with
          | [] => none
          | c1 :: rest2 =>
            if c1 = ':' then
              match parseVal fuel rest2 with
              | none => none
              | some (v, rest3) =>
                match skipWs rest3 with
                | [] => none
                | c2 :: rest4 =>
                  if c2 = ',' then (parseFields fuel rest4).map fun p => ((String.mk k, v) :: p.1, p.2)
                  else if c2 = '}' then some ([(String.mk k, v)], rest4)
                  else none
            else none
      else none
termination_by structural fuel => fuel

end

/-- `JSON.parse(text)`: parse one value, allow trailing whitespace, reject
trailing content; `none` models the thrown `SyntaxError`. The fuel bound
covers any input, since every parser step past the first consumes input. -/
def Json.parse (s : String) : Option Json :=
  match parseVal (2 * s.length + 1) s.data with
  | some (j, rest) => if skipWs rest = [] then some j else none
  | none => none

/-!
The Transcript Store: `loadHistoryFromLocalStorage` reads the slot and, if
the stored string is truthy, assigns `JSON.parse` of it to `chatHistory`
and renders every entry; `saveHistoryToLocalStorage` writes
`JSON.stringify(chatHistory)`. A parse failure, a parsed value that is not
an array (its `forEach` is not a function), or a `null` element (reading
`.role` of `null`) throws out of the load; these thrown paths are the
`Except` error results. Elements that are not objects do not throw —
property access on a primitive or an array yields `undefined` — and decode
to messages with `undefined` fields, as the browser leaves them.
-/

/-- Which exception a failing load models: the `JSON.parse` `SyntaxError`,
or the `TypeError` thrown when iterating or reading the parsed value. -/
inductive LoadError where
  | syntaxError : LoadError
  | typeError : LoadError
deriving DecidableEq

/-- Read one history entry off a parsed array element, as `renderMessage`
reads `message.role` and `message.content`. -/
def decodeMessage : Json → Except LoadError Message
  | .null => .error .typeError
  | j => .ok ⟨jsProp j "role", jsProp j "content"⟩

/-- Read a whole parsed history value, as the `forEach` over the assigned
`chatHistory` traverses it. -/
def decodeMessages : Json → Except LoadError (List Message)
  | .arr elems => elems.mapM decodeMessage
  | _ => .error .typeError

/-- JSON encoding of one history entry, as `JSON.stringify` serializes the
`{role, content}` object: properties in insertion order, `undefined`
properties dropped. -/
def Message.toJson (m : Message) : Json :=
  .obj ((match m.role with | .undefined => [] | .json j => [("role", j)]) ++
    (match m.content with | .undefined => [] | .json j => [("content", j)]))

/-- JSON encoding of the whole `chatHistory` array. -/
def messagesToJson (history : List Message) : Json :=
  .arr (history.map Message.toJson)

/-- The load half of the Transcript Store. An absent slot (and the one
falsy string, the empty string) skips the restore and leaves the fresh
empty history; otherwise the stored string is parsed and traversed, and
any thrown error propagates out as an `Except.error`. -/
def loadHistoryFromLocalStorage (slot : Option String) : Except LoadError (List Message) :=
  match slot with
  | none => .ok []
  | some s =>
    if s = "" then .ok []
    else
      match Json.parse s with
      | none => .error .syntaxError
      | some j => decodeMessages j

/-- The save half of the Transcript Store: the slot value after
`localStorage.setItem("chatHistory", JSON.stringify(chatHistory))`. -/
def saveHistoryToLocalStorage (history : List Message) : Option String :=
  some (Json.stringify (messagesToJson history))

/-!
The Session Controller. The page state visible to the chat script: the
in-memory `chatHistory` array, the chat-window message list in append
order, the durable slot, the text input, the two UI-waiting affordances,
and whether a fetch is in flight. The async submit handler is split at its
`await fetch` into `handleFormSubmit` (everything before the suspension,
also yielding the request body when one is issued) and `resolveChatTurn`
(everything after, as a function of the network outcome).
-/

/-- The chat page state. -/
structure SessionState where
  chatHistory : List Message
  rendered : List Message
  storage : Option String
  inputValue : String
  sendButtonDisabled : Bool
  typingIndicatorHidden : Bool
  pending : Bool

/-- The `renderMessage` helper: appends one entry to the chat window. -/
def renderMessage (role content : JsVal) (st : SessionState) : SessionState :=
  { st with rendered := st.rendered ++ [⟨role, content⟩] }

/-- The `setUiWaitingState` helper: the send button and typing indicator
always toggle together. -/
def setUiWaitingState (isWaiting : Bool) (st : SessionState) : SessionState :=
  { st with sendButtonDisabled := isWaiting, typingIndicatorHidden := !isWaiting }

/-- The POST body of a chat turn: `{ messages: chatHistory }`. -/
structure ChatRequest where
  messages : List Message

/-- The submit handler up to its `await`: trim the input, ignore it when
blank, otherwise push and render the user message, clear the input, enter
the waiting state, and issue the request carrying the full history. -/
def handleFormSubmit (st : SessionState) : SessionState × Option ChatRequest :=
  let userInput := jsTrim st.inputValue
  if userInput = "" then (st, none)
  else
    let st1 := { st with chatHistory := st.chatHistory ++ [⟨userRole, .json (.str userInput)⟩] }
    let st2 := renderMessage userRole (.json (.str userInput)) st1
    let st3 := setUiWaitingState true { st2 with inputValue := "" }
    let st4 := { st3 with pending := true }
    (st4, some ⟨st4.chatHistory⟩)

/-- How the awaited `fetch` comes back: an HTTP response with a status and
a body text, or a rejection carrying the transport failure description. -/
inductive NetOutcome where
  | response (status : Nat) (bodyText : String) : NetOutcome
  | transportFailure (description : String) : NetOutcome

/-- The `response.ok` predicate: status in the 2xx range. -/
def responseOk (status : Nat) : Bool := 200 ≤ status && status < 300

/-- The fixed connectivity-trouble text the catch branch renders. -/
def connectErrorText : String := "Sorry, I'm having trouble connecting. Please try again."

/-- The submit handler after its `await`. Non-2xx throws; a body that does
not parse makes `response.json()` reject; destructuring `{response}` from
a parsed `null` throws; each lands in the catch branch, which only renders
the fixed error text. Otherwise the assistant message — content whatever
the `response` property holds, `undefined` included — is pushed, rendered
and the history saved. The `finally` branch leaves the waiting state on
every path. -/
def resolveChatTurn (st : SessionState) (outcome : NetOutcome) : SessionState :=
  let st1 :=
    match outcome with
    | .response status bodyText =>
      if responseOk status then
        match Json.parse bodyText with
        | some .null => renderMessage errorRole (.json (.str connectErrorText)) st
        | some j =>
          let assistantResponse := jsProp j "response"
          let st' := { st with chatHistory := st.chatHistory ++ [⟨assistantRole, assistantResponse⟩] }
          let st'' := renderMessage assistantRole assistantResponse st'
          { st'' with storage := saveHistoryToLocalStorage st''.chatHistory }
        | none => renderMessage errorRole (.json (.str connectErrorText)) st
      else renderMessage errorRole (.json (.str connectErrorText)) st
    | .transportFailure _ => renderMessage errorRole (.json (.str connectErrorText)) st
  { setUiWaitingState false st1 with pending := false }

/-- A user submit gesture. A form whose default submit button is disabled
does not dispatch a submit event for the gesture, so the handler only runs
when the button is enabled; this browser behaviour is the guard the script
relies on while waiting. -/
def submitAction (st : SessionState) : SessionState × Option ChatRequest :=
  if st.sendButtonDisabled then (st, none) else handleFormSubmit st

/-- The `handleNewChat` click handler: clear the in-memory history, the
chat window, and the durable slot. -/
def handleNewChat (st : SessionState) : SessionState :=
  { st with chatHistory := [], rendered := [], storage := none }

/-- The user typing into the message input. -/
def setInput (s : String) (st : SessionState) : SessionState :=
  { st with inputValue := s }

/-- The fresh page state before the initial load: empty history, empty
window, enabled button, hidden indicator. -/
def freshPageState (slot : Option String) : SessionState where
  chatHistory := []
  rendered := []
  storage := slot
  inputValue := ""
  sendButtonDisabled := false
  typingIndicatorHidden := true
  pending := false

/-- A page load against a given slot: the fresh state, then
`loadHistoryFromLocalStorage`, which installs and renders the restored
history or throws out of the load handler. -/
def pageLoad (slot : Option String) : Except LoadError SessionState :=
  match loadHistoryFromLocalStorage slot with
  | .ok h => .ok { freshPageState slot with chatHistory := h, rendered := h }
  | .error e => .error e

/-- The state of a first visit: a fresh page with an absent slot. -/
def initialState : SessionState := freshPageState none

/-- The session states the chat page can actually be in: a first visit
followed by any interleaving of typing, submit gestures, resolutions of
the in-flight call, new-chat clicks, and reloads against the slot the
session itself wrote. -/
inductive Reachable : SessionState → Prop where
  | init : Reachable initialState
  | typeInput (s : String) {st : SessionState} : Reachable st → Reachable (setInput s st)
  | submit {st : SessionState} : Reachable st → Reachable (submitAction st).1
  | resolve (outcome : NetOutcome) {st : SessionState} :
      Reachable st → st.pending = true → Reachable (resolveChatTurn st outcome)
  | newChat {st : SessionState} : Reachable st → Reachable (handleNewChat st)
  | reload {st st' : SessionState} :
      Reachable st → pageLoad st.storage = .ok st' → Reachable st'

/-!
The FAQ form. Its submit handler validates the select value, builds a GET
request with the `question` and optional trimmed `mcp-server` parameters,
and renders either the pretty-printed JSON body or an error line into the
single output slot. The `JSON.stringify(data, null, 2)` display format is
modelled by a two-space pretty printer.
-/

mutual

/-- Pretty-printed `JSON.stringify(value, null, 2)` output at a given
indentation depth. -/
def prettyChars (ind : Nat) : Json → List Char
  | .arr [] => ['[', ']']
  | .arr (x :: xs) =>
    '[' :: '\n' :: (List.replicate (ind + 2) ' ' ++ prettyChars (ind + 2) x ++
      prettyArrRest (ind + 2) xs ++ '\n' :: (List.replicate ind ' ' ++ [']']))
  | .obj [] => ['{', '}']
  | .obj ((k, v) :: fs) =>
    '{' :: '\n' :: (List.replicate (ind + 2) ' ' ++
      '"' :: (escString k.data ++ '"' :: ':' :: ' ' :: prettyChars (ind + 2) v) ++
      prettyObjRest (ind + 2) fs ++ '\n' :: (List.replicate ind ' ' ++ ['}']))
  | j => Json.stringifyChars j
termination_by structural j => j

/-- Array elements after the first, each on its own indented line. -/
def prettyArrRest (ind : Nat) : List Json → List Char
  | [] => []
  | x :: xs =>
    ',' :: '\n' :: (List.replicate ind ' ' ++ prettyChars ind x ++ prettyArrRest ind xs)
termination_by structural l => l

/-- Object fields after the first, each on its own indented line. -/
def prettyObjRest (ind : Nat) : List (String × Json) → List Char
  | [] => []
  | (k, v) :: fs =>
    ',' :: '\n' :: (List.replicate ind ' ' ++
      '"' :: (escString k.data ++ '"' :: ':' :: ' ' :: prettyChars ind v) ++ prettyObjRest ind fs)
termination_by structural l => l

end

/-- `JSON.stringify(value, null, 2)`, the FAQ success rendering. -/
def Json.stringifyPretty (j : Json) : String := String.mk (prettyChars 0 j)

/-- The FAQ page state: the select value, the auxiliary server input, the
single output slot, and the two processing affordances. -/
structure FaqState where
  questionValue : String
  mcpServerValue : String
  responseOutput : String
  sendButtonDisabled : Bool
  processingDisplay : String

/-- The GET request the FAQ handler issues: the required `question`
parameter and the `mcp-server` parameter when the trimmed input is
non-blank. -/
structure FaqRequest where
  question : String
  mcpServer : Option String

/-- Description carried by the platform `SyntaxError` when
`response.json()` rejects; the scripts only display it, never inspect it,
so a fixed model text stands for the engine-specific message. -/
def jsonParseErrorText : String := "Unexpected token in JSON"

/-- Description carried by the `TypeError` thrown by `errorData.detail`
when the error body parsed to `null`; fixed model text as above. -/
def nullDetailErrorText : String := "Cannot read properties of null"

/-- The message of the error the non-2xx branch throws: the `detail` field
of the parsed error body when truthy, otherwise the generic status line;
a body that does not parse, or parses to `null`, makes the branch throw
its own platform error first. -/
def faqNon2xxMessage (status : Nat) (bodyText : String) : String :=
  match Json.parse bodyText with
  | none => jsonParseErrorText
  | some .null => nullDetailErrorText
  | some j =>
    let d := jsProp j "detail"
    if jsTruthy d then jsToString d else "HTTP error! status: " ++ toString status

/-- The FAQ submit handler, atomically as a function of the network
outcome (its single suspension point is the fetch): an unselected question
writes the prompt text and returns before touching the affordances or the
network; otherwise the button is disabled and re-enabled around the call
and the output slot receives the success rendering or the caught error
message prefixed by the fixed wrapper. -/
def faqSubmit (st : FaqState) (outcome : NetOutcome) : FaqState × Option FaqRequest :=
  if st.questionValue = "" then
    ({ st with responseOutput := "Please select a question." }, none)
  else
    let mcpServer := jsTrim st.mcpServerValue
    let req : FaqRequest := ⟨st.questionValue, if mcpServer = "" then none else some mcpServer⟩
    let output :=
      match outcome with
      | .response status bodyText =>
        if responseOk status then
          match Json.parse bodyText with
          | some j => Json.stringifyPretty j
          | none => "An error occurred: " ++ jsonParseErrorText
        else "An error occurred: " ++ faqNon2xxMessage status bodyText
      | .transportFailure description => "An error occurred: " ++ description
    ({ st with responseOutput := output, sendButtonDisabled := false, processingDisplay := "none" },
      some req)

/-! Round-trip machinery: decimal digits. -/

/-- Digits in the decimal range render to decimal digit characters. -/
theorem digitChar_isDigit : ∀ d, d < 10 → (digitChar d).isDigit = true := by decide

/-- Character value of a rendered decimal digit. -/
theorem digitChar_toNat : ∀ d, d < 10 → (digitChar d).toNat = 48 + d := by decide

/-- Input whose head cannot extend a digit run. -/
def noDigitHead : List Char → Prop
  | [] => True
  | c :: _ => c.isDigit = false

/-- A digit run stops at a non-digit head. -/
theorem goDigits_stop {cs : List Char} (h : noDigitHead cs) (acc : Nat) :
    goDigits acc cs = (acc, cs) := by
  cases cs with
  | nil => rfl
  | cons c rest =>
    have h' : c.isDigit = false := h
    simp [goDigits, h']

/-- Every character a positive number renders to is a decimal digit. -/
theorem natCharsAux_all_digits :
    ∀ fuel n c, c ∈ natCharsAux fuel n → c.isDigit = true := by
  intro fuel
  induction fuel with
  | zero => intro n c h; simp [natCharsAux] at h
  | succ f ih =>
    intro n c h
    match n with
    | 0 => simp [natCharsAux] at h
    | n + 1 =>
      rw [natCharsAux] at h
      rcases List.mem_append.mp h with h | h
      · exact ih _ _ h
      · rw [List.mem_singleton.mp h]
        exact digitChar_isDigit _ (Nat.mod_lt _ (by omega))

/-- A positive number renders to at least one character. -/
theorem natCharsAux_ne_nil : ∀ fuel n, n ≠ 0 → n ≤ fuel → natCharsAux fuel n ≠ [] := by
  intro fuel n hn hf
  match fuel, n with
  | 0, n => omega
  | f + 1, 0 => omega
  | f + 1, n + 1 => simp [natCharsAux]

/-- Consuming a rendered number accumulates its value. -/
theorem goDigits_natCharsAux (fuel : Nat) :
    ∀ n acc rest, n ≤ fuel →
      goDigits acc (natCharsAux fuel n ++ rest) =
        goDigits (acc * 10 ^ (natCharsAux fuel n).length + n) rest := by
  induction fuel with
  | zero =>
    intro n acc rest hn
    have : n = 0 := by omega
    subst this
    simp [natCharsAux]
  | succ f ih =>
    intro n acc rest hn
    match n with
    | 0 => simp [natCharsAux]
    | n + 1 =>
      have hdiv : (n + 1) / 10 ≤ f := by
        have := Nat.div_lt_self (show 0 < n + 1 by omega) (show 1 < 10 by omega)
        omega
      rw [natCharsAux, List.append_assoc, ih _ acc _ hdiv]
      have hlt : (n + 1) % 10 < 10 := Nat.mod_lt _ (by omega)
      rw [List.cons_append, goDigits]
      rw [if_pos (digitChar_isDigit _ hlt)]
      rw [digitChar_toNat _ hlt]
      have hmod := Nat.div_add_mod (n + 1) 10
      rw [List.length_append, List.length_singleton, Nat.pow_succ, ← Nat.mul_assoc]
      congr 1
      generalize acc * 10 ^ (natCharsAux f ((n + 1) / 10)).length = Y
      omega

/-- Round trip for the decimal rendering of a natural number. -/
theorem parseDigits_natChars (m : Nat) (rest : List Char) (h : noDigitHead rest) :
    parseDigits (natChars m ++ rest) = some (m, rest) := by
  by_cases hm : m = 0
  · subst hm
    have h0 : ('0' : Char).isDigit = true := by decide
    simp [natChars, parseDigits, goDigits, goDigits_stop h]
  · rw [natChars, if_neg hm]
    obtain ⟨c, cs, hc⟩ : ∃ c cs, natCharsAux m m = c :: cs := by
      cases hcc : natCharsAux m m with
      | nil => exact absurd hcc (natCharsAux_ne_nil m m hm le_rfl)
      | cons c cs => exact ⟨c, cs, rfl⟩
    have hcd : c.isDigit = true :=
      natCharsAux_all_digits m m c (by rw [hc]; exact List.mem_cons_self c cs)
    rw [hc, List.cons_append, parseDigits]
    rw [if_pos hcd, ← List.cons_append, ← hc]
    rw [goDigits_natCharsAux m m 0 rest le_rfl, goDigits_stop h]
    simp

/-! Round-trip machinery: quoted strings. -/

theorem hexVal_hexDigitChar : ∀ n, n < 16 → hexVal (hexDigitChar n) = some n := by decide

theorem parseStringBody_unicode (h3 h4 : Char) (a b : Nat) (tail : List Char)
    (hh3 : hexVal h3 = some a) (hh4 : hexVal h4 = some b)
    (hsur : ¬(55296 ≤ 16 * a + b ∧ 16 * a + b ≤ 57343)) :
    parseStringBody ('\\' :: 'u' :: '0' :: '0' :: h3 :: h4 :: tail)
      = (parseStringBody tail).map fun p => (Char.ofNat (16 * a + b) :: p.1, p.2) := by
  have h0 : hexVal '0' = some 0 := by decide
  rw [parseStringBody.eq_def]
  simp +decide [h0, hh3, hh4, hsur]

theorem parseStringBody_escString (cs : List Char) (rest : List Char) :
    parseStringBody (escString cs ++ '"' :: rest) = some (cs, rest) := by
  induction cs with
  | nil =>
    rw [show escString [] = [] from rfl, List.nil_append, parseStringBody.eq_def]
    simp +decide
  | cons c cs ih =>
    by_cases h1 : c = '"'
    · subst h1
      rw [escString, List.append_assoc, show escChar '"' = ['\\', '"'] from by decide,
        List.cons_append, List.singleton_append, parseStringBody.eq_def]
      simp +decide [ih]
    · by_cases h2 : c = '\\'
      · subst h2
        rw [escString, List.append_assoc, show escChar '\\' = ['\\', '\\'] from by decide,
          List.cons_append, List.singleton_append, parseStringBody.eq_def]
        simp +decide [ih]
      · by_cases h3 : c = '\x08'
        · subst h3
          rw [escString, List.append_assoc, show escChar '\x08' = ['\\', 'b'] from by decide,
            List.cons_append, List.singleton_append, parseStringBody.eq_def]
          simp +decide [ih]
        · by_cases h4 : c = '\t'
          · subst h4
            rw [escString, List.append_assoc, show escChar '\t' = ['\\', 't'] from by decide,
              List.cons_append, List.singleton_append, parseStringBody.eq_def]
            simp +decide [ih]
          · by_cases h5 : c = '\n'
            · subst h5
              rw [escString, List.append_assoc, show escChar '\n' = ['\\', 'n'] from by decide,
                List.cons_append, List.singleton_append, parseStringBody.eq_def]
              simp +decide [ih]
            · by_cases h6 : c = '\x0c'
              · subst h6
                rw [escString, List.append_assoc, show escChar '\x0c' = ['\\', 'f'] from by decide,
                  List.cons_append, List.singleton_append, parseStringBody.eq_def]
                simp +decide [ih]
              · by_cases h7 : c = '\r'
                · subst h7
                  rw [escString, List.append_assoc, show escChar '\r' = ['\\', 'r'] from by decide,
                    List.cons_append, List.singleton_append, parseStringBody.eq_def]
                  simp +decide [ih]
                · by_cases h8 : c.toNat < 32
                  · rw [escString, List.append_assoc, escChar, if_neg h1, if_neg h2,
                      if_neg h3, if_neg h4, if_neg h5, if_neg h6, if_neg h7, if_pos h8]
                    simp only [List.cons_append, List.nil_append]
                    rw [parseStringBody_unicode _ _ (c.toNat / 16) (c.toNat % 16) _
                      (hexVal_hexDigitChar _ (by omega))
                      (hexVal_hexDigitChar _ (Nat.mod_lt _ (by omega)))
                      (by omega)]
                    have hval : 16 * (c.toNat / 16) + c.toNat % 16 = c.toNat := by omega
                    rw [hval, Char.ofNat_toNat, ih]
                    rfl
                  · rw [escString, List.append_assoc, escChar, if_neg h1, if_neg h2,
                      if_neg h3, if_neg h4, if_neg h5, if_neg h6, if_neg h7, if_neg h8,
                      List.singleton_append, parseStringBody.eq_def]
                    simp +decide [h1, h2, h8, ih]

/-! Round-trip machinery: values. -/

mutual

/-- Fuel needed by the parser on serialized output. -/
def jsonFuel : Json → Nat
  | .null => 1
  | .bool _ => 1
  | .num _ => 1
  | .str _ => 1
  | .arr xs => 1 + itemsFuel xs
  | .obj fs => 1 + fieldsFuel fs
termination_by structural j => j

/-- Fuel needed on serialized array items. -/
def itemsFuel : List Json → Nat
  | [] => 0
  | j :: rest => 1 + jsonFuel j + itemsFuel rest
termination_by structural l => l

/-- Fuel needed on serialized object fields. -/
def fieldsFuel : List (String × Json) → Nat
  | [] => 0
  | (_, v) :: rest => 1 + jsonFuel v + fieldsFuel rest
termination_by structural l => l

end

/-- Skipping whitespace stops at a non-whitespace head. -/
theorem skipWs_cons {c : Char} (l : List Char) (h : wsChar c = false) :
    skipWs (c :: l) = c :: l := by
  simp [skipWs, h]

/-- A decimal digit is not whitespace and not any token-leading literal. -/
theorem isDigit_noLit (c : Char) (h : c.isDigit = true) :
    wsChar c = false ∧ c ≠ 'n' ∧ c ≠ 't' ∧ c ≠ 'f' ∧ c ≠ '"' ∧ c ≠ '[' ∧
      c ≠ '{' ∧ c ≠ '-' ∧ c ≠ ']' ∧ c ≠ '}' ∧ c ≠ ',' := by
  have hr : 48 ≤ c.toNat ∧ c.toNat ≤ 57 := by
    simp [Char.isDigit, decide_eq_true_eq] at h
    exact ⟨h.1, h.2⟩
  refine ⟨?_, ?_, ?_, ?_, ?_, ?_, ?_, ?_, ?_, ?_, ?_⟩
  · by_contra hws
    rw [Bool.not_eq_false] at hws
    simp only [wsChar, Bool.or_eq_true, decide_eq_true_eq] at hws
    rcases hws with ((rfl | rfl) | rfl) | rfl <;> simp at hr
  all_goals (rintro rfl; simp at hr)

/-- Parser reduction at a `null` keyword head. -/
theorem parseVal_null (fuel : Nat) (tail : List Char) :
    parseVal (fuel + 1) ('n' :: 'u' :: 'l' :: 'l' :: tail) = some (.null, tail) := by
  rw [parseVal.eq_def]
  simp +decide [skipWs, dropLit]

/-- Parser reduction at a `true` keyword head. -/
theorem parseVal_true (fuel : Nat) (tail : List Char) :
    parseVal (fuel + 1) ('t' :: 'r' :: 'u' :: 'e' :: tail) = some (.bool true, tail) := by
  rw [parseVal.eq_def]
  simp +decide [skipWs, dropLit]

/-- Parser reduction at a `false` keyword head. -/
theorem parseVal_false (fuel : Nat) (tail : List Char) :
    parseVal (fuel + 1) ('f' :: 'a' :: 'l' :: 's' :: 'e' :: tail) = some (.bool false, tail) := by
  rw [parseVal.eq_def]
  simp +decide [skipWs, dropLit]

/-- Parser reduction at an opening quote. -/
theorem parseVal_quote (fuel : Nat) (tail : List Char) :
    parseVal (fuel + 1) ('"' :: tail) =
      (parseStringBody tail).map fun p => (.str (String.mk p.1), p.2) := by
  rw [parseVal.eq_def]
  simp +decide [skipWs]

/-- Parser reduction at an opening bracket. -/
theorem parseVal_lbracket (fuel : Nat) (tail : List Char) :
    parseVal (fuel + 1) ('[' :: tail) =
      (match skipWs tail with
       | [] => none
       | c2 :: rest2 =>
         if c2 = ']' then some (.arr [], rest2)
         else (parseItems fuel (c2 :: rest2)).map fun p => (.arr p.1, p.2)) := by
  rw [parseVal.eq_def]
  simp +decide [skipWs]

/-- Parser reduction at an opening brace. -/
theorem parseVal_lbrace (fuel : Nat) (tail : List Char) :
    parseVal (fuel + 1) ('{' :: tail) =
      (match skipWs tail with
       | [] => none
       | c2 :: rest2 =>
         if c2 = '}' then some (.obj [], rest2)
         else (parseFields fuel (c2 :: rest2)).map fun p => (.obj p.1, p.2)) := by
  rw [parseVal.eq_def]
  simp +decide [skipWs]

/-- Parser reduction at a minus sign. -/
theorem parseVal_minus (fuel : Nat) (tail : List Char) :
    parseVal (fuel + 1) ('-' :: tail) =
      (parseDigits tail).map fun p => (.num (-(p.1 : Int)), p.2) := by
  rw [parseVal.eq_def]
  simp +decide [skipWs]

/-- Parser reduction at a digit head. -/
theorem parseVal_digit (fuel : Nat) (c : Char) (tail : List Char) (h : c.isDigit = true) :
    parseVal (fuel + 1) (c :: tail) =
      (parseDigits (c :: tail)).map fun p => (.num (p.1 : Int), p.2) := by
  obtain ⟨hws, hn, ht, hf, hq, hlb, hlc, hm, _, _, _⟩ := isDigit_noLit c h
  rw [parseVal.eq_def]
  simp only [skipWs_cons _ hws]
  simp only [if_neg hn, if_neg ht, if_neg hf, if_neg hq, if_neg hlb, if_neg hlc, if_neg hm, if_pos h]

/-- A rendered natural number starts with a digit. -/
theorem natChars_head (m : Nat) :
    ∃ c cs, natChars m = c :: cs ∧ c.isDigit = true := by
  by_cases hm : m = 0
  · subst hm
    exact ⟨'0', [], rfl, by decide⟩
  · rw [natChars, if_neg hm]
    obtain ⟨c, cs, hc⟩ : ∃ c cs, natCharsAux m m = c :: cs := by
      cases hcc : natCharsAux m m with
      | nil => exact absurd hcc (natCharsAux_ne_nil m m hm le_rfl)
      | cons c cs => exact ⟨c, cs, rfl⟩
    exact ⟨c, cs, hc, natCharsAux_all_digits m m c (by rw [hc]; exact List.mem_cons_self c cs)⟩

/-- Serialized output starts with a character that is not whitespace and
not a closing or separating token. -/
theorem stringifyChars_head (j : Json) :
    ∃ c cs, Json.stringifyChars j = c :: cs ∧ (wsChar c = false ∧ c ≠ ']' ∧ c ≠ '}') := by
  cases j with
  | num n =>
    rw [Json.stringifyChars, intChars]
    by_cases hn : n < 0
    · rw [if_pos hn]
      refine ⟨'-', _, rfl, ?_⟩
      refine ⟨?_, ?_, ?_⟩ <;> decide
    · rw [if_neg hn]
      obtain ⟨c, cs, hc, hd⟩ := natChars_head n.toNat
      obtain ⟨hws, _, _, _, _, _, _, _, hrb, hrc, _⟩ := isDigit_noLit c hd
      exact ⟨c, cs, hc, hws, hrb, hrc⟩
  | bool b =>
    cases b
    · refine ⟨'f', _, rfl, ?_⟩
      refine ⟨?_, ?_, ?_⟩ <;> decide
    · refine ⟨'t', _, rfl, ?_⟩
      refine ⟨?_, ?_, ?_⟩ <;> decide
  | null =>
    refine ⟨'n', _, rfl, ?_⟩
    refine ⟨?_, ?_, ?_⟩ <;> decide
  | str s =>
    refine ⟨'"', _, rfl, ?_⟩
    refine ⟨?_, ?_, ?_⟩ <;> decide
  | arr xs =>
    refine ⟨'[', _, rfl, ?_⟩
    refine ⟨?_, ?_, ?_⟩ <;> decide
  | obj fs =>
    refine ⟨'{', _, rfl, ?_⟩
    refine ⟨?_, ?_, ?_⟩ <;> decide

/-- The tail after an array element — the rest of the items then the
closing bracket — starts with a comma or the bracket. -/
theorem noDigitHead_arrSep (xs : List Json) (rest : List Char) :
    noDigitHead (stringifyArrRest xs ++ ']' :: rest) := by
  cases xs with
  | nil => exact (by decide : (']' : Char).isDigit = false)
  | cons y ys =>
    rw [stringifyArrRest, List.cons_append]
    exact (by decide : ((',' : Char)).isDigit = false)

/-- The tail after an object value starts with a comma or the closing
brace. -/
theorem noDigitHead_objSep (fs : List (String × Json)) (rest : List Char) :
    noDigitHead (stringifyObjRest fs ++ '}' :: rest) := by
  cases fs with
  | nil => exact (by decide : (('}' : Char)).isDigit = false)
  | cons f fs' =>
    obtain ⟨k, v⟩ := f
    rw [stringifyObjRest, List.cons_append]
    exact (by decide : ((',' : Char)).isDigit = false)


/-- Unfolding of the serializer on a number. -/
theorem stringifyChars_num (n : Int) : Json.stringifyChars (.num n) = intChars n := by
  rw [Json.stringifyChars.eq_def]

/-- Unfolding of the serializer on a string. -/
theorem stringifyChars_str (s : String) :
    Json.stringifyChars (.str s) = '"' :: (escString s.data ++ ['"']) := by
  rw [Json.stringifyChars.eq_def]

/-- Unfolding of the serializer on an array. -/
theorem stringifyChars_arr (xs : List Json) :
    Json.stringifyChars (.arr xs) = '[' :: (stringifyArrItems xs ++ [']']) := by
  rw [Json.stringifyChars.eq_def]

/-- Unfolding of the serializer on an object. -/
theorem stringifyChars_obj (fs : List (String × Json)) :
    Json.stringifyChars (.obj fs) = '{' :: (stringifyObjItems fs ++ ['}']) := by
  rw [Json.stringifyChars.eq_def]

/-- Unfolding of the item serializer on a cons. -/
theorem stringifyArrItems_cons (x : Json) (xs : List Json) :
    stringifyArrItems (x :: xs) = Json.stringifyChars x ++ stringifyArrRest xs := by
  rw [stringifyArrItems.eq_def]

/-- Unfolding of the item-tail serializer on a cons. -/
theorem stringifyArrRest_cons (x : Json) (xs : List Json) :
    stringifyArrRest (x :: xs) = ',' :: (Json.stringifyChars x ++ stringifyArrRest xs) := by
  rw [stringifyArrRest.eq_def]

/-- Unfolding of the field serializer on a cons. -/
theorem stringifyObjItems_cons (k : String) (v : Json) (fs : List (String × Json)) :
    stringifyObjItems ((k, v) :: fs) =
      '"' :: (escString k.data ++ ['"']) ++ ':' :: (Json.stringifyChars v ++ stringifyObjRest fs) := by
  rw [stringifyObjItems.eq_def]

/-- Unfolding of the field-tail serializer on a cons. -/
theorem stringifyObjRest_cons (k : String) (v : Json) (fs : List (String × Json)) :
    stringifyObjRest ((k, v) :: fs) =
      ',' :: '"' :: (escString k.data ++ ['"']) ++ ':' :: (Json.stringifyChars v ++ stringifyObjRest fs) := by
  rw [stringifyObjRest.eq_def]

theorem parseItems_succ (fuel : Nat) (cs : List Char) :
    parseItems (fuel + 1) cs =
      match parseVal fuel cs with
      | none => none
      | some (j, rest) =>
        match skipWs rest with
        | [] => none
        | c :: rest2 =>
          if c = ',' then (parseItems fuel rest2).map fun p => (j :: p.1, p.2)
          else if c = ']' then some ([j], rest2)
          else none := by
  rw [parseItems.eq_def]

theorem parseFields_succ (fuel : Nat) (cs : List Char) :
    parseFields (fuel + 1) cs =
      match skipWs cs with
      | [] => none
      | c :: rest =>
        if c = '"' then
          match parseStringBody rest with
          | none => none
          | some (k, rest1) =>
            match skipWs rest1 with
            | [] => none
            | c1 :: rest2 =>
              if c1 = ':' then
                match parseVal fuel rest2 with
                | none => none
                | some (v, rest3) =>
                  match skipWs rest3 with
                  | [] => none
                  | c2 :: rest4 =>
                    if c2 = ',' then (parseFields fuel rest4).map fun p => ((String.mk k, v) :: p.1, p.2)
                    else if c2 = '}' then some ([(String.mk k, v)], rest4)
                    else none
              else none
        else none := by
  rw [parseFields.eq_def]


mutual

/-- Parsing serialized output recovers the value and leaves the trailing
input, whenever the trailing input cannot extend a numeric token. -/
theorem parseVal_stringify (j : Json) :
    ∀ (fuel : Nat) (rest : List Char), jsonFuel j ≤ fuel → noDigitHead rest →
      parseVal fuel (Json.stringifyChars j ++ rest) = some (j, rest) := by
  intro fuel rest hfuel hrest
  obtain ⟨f, rfl⟩ : ∃ f, fuel = f + 1 := by
    refine ⟨fuel - 1, ?_⟩
    have h1 : 1 ≤ jsonFuel j := by cases j <;> simp [jsonFuel]
    omega
  cases j with
  | null =>
    rw [show Json.stringifyChars .null = ['n', 'u', 'l', 'l'] from rfl]
    simp only [List.cons_append, List.nil_append]
    exact parseVal_null f rest
  | bool b =>
    cases b with
    | true =>
      rw [show Json.stringifyChars (.bool true) = ['t', 'r', 'u', 'e'] from rfl]
      simp only [List.cons_append, List.nil_append]
      exact parseVal_true f rest
    | false =>
      rw [show Json.stringifyChars (.bool false) = ['f', 'a', 'l', 's', 'e'] from rfl]
      simp only [List.cons_append, List.nil_append]
      exact parseVal_false f rest
  | str s =>
    rw [stringifyChars_str, List.cons_append, List.append_assoc, List.singleton_append,
      parseVal_quote, parseStringBody_escString]
    rfl
  | num n =>
    rw [stringifyChars_num, intChars]
    by_cases hn : n < 0
    · rw [if_pos hn, List.cons_append, parseVal_minus, parseDigits_natChars _ _ hrest]
      have hval : -(n.natAbs : Int) = n := by omega
      simp only [Option.map_some']
      rw [hval]
    · rw [if_neg hn]
      obtain ⟨c, cs, hc, hd⟩ := natChars_head n.toNat
      rw [hc, List.cons_append, parseVal_digit f c _ hd, ← List.cons_append, ← hc,
        parseDigits_natChars _ _ hrest]
      have hval : (n.toNat : Int) = n := by omega
      simp only [Option.map_some']
      rw [hval]
  | arr xs =>
    cases xs with
    | nil =>
      rw [show Json.stringifyChars (.arr []) = ['[', ']'] from rfl]
      simp only [List.cons_append, List.nil_append]
      rw [parseVal_lbracket, skipWs_cons _ (by decide)]
      simp +decide
    | cons x xs' =>
      rw [jsonFuel] at hfuel
      rw [stringifyChars_arr, List.cons_append, List.append_assoc, List.singleton_append,
        parseVal_lbracket]
      obtain ⟨c, cs, hc, hws, hrb, _⟩ := stringifyChars_head x
      have hshape : stringifyArrItems (x :: xs') ++ ']' :: rest
          = c :: (cs ++ (stringifyArrRest xs' ++ ']' :: rest)) := by
        rw [stringifyArrItems_cons, hc]
        simp [List.cons_append, List.append_assoc]
      rw [hshape, skipWs_cons _ hws]
      simp only [if_neg hrb]
      rw [← hshape, parseItems_stringify (x :: xs') (by simp) f rest (by omega)]
      rfl
  | obj fs =>
    cases fs with
    | nil =>
      rw [show Json.stringifyChars (.obj []) = ['{', '}'] from rfl]
      simp only [List.cons_append, List.nil_append]
      rw [parseVal_lbrace, skipWs_cons _ (by decide)]
      simp +decide
    | cons f0 fs' =>
      obtain ⟨k, v⟩ := f0
      rw [jsonFuel] at hfuel
      rw [stringifyChars_obj, List.cons_append, List.append_assoc, List.singleton_append,
        parseVal_lbrace]
      have hshape : stringifyObjItems ((k, v) :: fs') ++ '}' :: rest
          = '"' :: (escString k.data ++
              ('"' :: (':' :: (Json.stringifyChars v ++ (stringifyObjRest fs' ++ '}' :: rest))))) := by
        rw [stringifyObjItems_cons]
        simp [List.cons_append, List.append_assoc]
      rw [hshape, skipWs_cons _ (by decide)]
      simp only [if_neg (show ¬('"' : Char) = '}' by decide)]
      rw [← hshape, parseFields_stringify ((k, v) :: fs') (by simp) f rest (by omega)]
      rfl

/-- Parsing the serialized items of a non-empty array consumes them and
the closing bracket. -/
theorem parseItems_stringify (xs : List Json) :
    xs ≠ [] → ∀ (fuel : Nat) (rest : List Char), itemsFuel xs ≤ fuel →
      parseItems fuel (stringifyArrItems xs ++ ']' :: rest) = some (xs, rest) := by
  match xs with
  | [] => intro h; exact absurd rfl h
  | x :: xs' =>
    intro _ fuel rest hfuel
    rw [itemsFuel] at hfuel
    obtain ⟨f, rfl⟩ : ∃ f, fuel = f + 1 := ⟨fuel - 1, by omega⟩
    rw [parseItems_succ, stringifyArrItems_cons, List.append_assoc]
    have hv := parseVal_stringify x f (stringifyArrRest xs' ++ ']' :: rest)
      (by omega) (noDigitHead_arrSep xs' rest)
    simp only [hv]
    cases xs' with
    | nil =>
      rw [show stringifyArrRest [] = [] from rfl]
      simp only [List.nil_append]
      rw [skipWs_cons _ (by decide)]
      simp +decide
    | cons y ys =>
      rw [stringifyArrRest_cons, List.cons_append, skipWs_cons _ (by decide)]
      have hsh : (Json.stringifyChars y ++ stringifyArrRest ys) ++ ']' :: rest
          = stringifyArrItems (y :: ys) ++ ']' :: rest := by
        rw [stringifyArrItems_cons]
      simp +decide only [hsh]
      rw [parseItems_stringify (y :: ys) (by simp) f rest (by omega)]
      rfl

/-- Parsing the serialized fields of a non-empty object consumes them and
the closing brace. -/
theorem parseFields_stringify (fs : List (String × Json)) :
    fs ≠ [] → ∀ (fuel : Nat) (rest : List Char), fieldsFuel fs ≤ fuel →
      parseFields fuel (stringifyObjItems fs ++ '}' :: rest) = some (fs, rest) := by
  match fs with
  | [] => intro h; exact absurd rfl h
  | (k, v) :: fs' =>
    intro _ fuel rest hfuel
    rw [fieldsFuel] at hfuel
    obtain ⟨f, rfl⟩ : ∃ f, fuel = f + 1 := ⟨fuel - 1, by omega⟩
    have hshape : stringifyObjItems ((k, v) :: fs') ++ '}' :: rest
        = '"' :: (escString k.data ++
            ('"' :: (':' :: (Json.stringifyChars v ++ (stringifyObjRest fs' ++ '}' :: rest))))) := by
      rw [stringifyObjItems_cons]
      simp [List.cons_append, List.append_assoc]
    rw [parseFields_succ, hshape, skipWs_cons _ (by decide)]
    simp +decide only [parseStringBody_escString]
    rw [skipWs_cons _ (by decide)]
    have hv := parseVal_stringify v f (stringifyObjRest fs' ++ '}' :: rest)
      (by omega) (noDigitHead_objSep fs' rest)
    simp +decide only [hv]
    cases fs' with
    | nil =>
      rw [show stringifyObjRest [] = [] from rfl]
      simp only [List.nil_append]
      rw [skipWs_cons _ (by decide)]
      simp +decide
    | cons f2 fs2 =>
      obtain ⟨k2, v2⟩ := f2
      have hsh2 : stringifyObjRest ((k2, v2) :: fs2) ++ '}' :: rest
          = ',' :: (stringifyObjItems ((k2, v2) :: fs2) ++ '}' :: rest) := by
        rw [stringifyObjRest_cons, stringifyObjItems_cons]
        simp [List.cons_append, List.append_assoc]
      rw [hsh2, skipWs_cons _ (by decide)]
      have hrec := parseFields_stringify ((k2, v2) :: fs2) (by simp) f rest (by omega)
      simp +decide only [hrec]
      simp

end

/-- Length of the item tail relative to the items. -/
theorem stringifyArrRest_length (y : Json) (ys : List Json) :
    (stringifyArrRest (y :: ys)).length = 1 + (stringifyArrItems (y :: ys)).length := by
  rw [stringifyArrRest_cons, stringifyArrItems_cons]
  simp
  omega

/-- Length of the field tail relative to the fields. -/
theorem stringifyObjRest_length (g : String × Json) (gs : List (String × Json)) :
    (stringifyObjRest (g :: gs)).length = 1 + (stringifyObjItems (g :: gs)).length := by
  obtain ⟨k, v⟩ := g
  rw [stringifyObjRest_cons, stringifyObjItems_cons]
  simp
  omega

mutual

/-- The fuel the parser needs on serialized output is within the fuel the
top-level entry point grants. -/
theorem jsonFuel_le (j : Json) : jsonFuel j ≤ 2 * (Json.stringifyChars j).length := by
  cases j with
  | null => decide
  | bool b => cases b <;> decide
  | num n =>
    rw [jsonFuel, stringifyChars_num, intChars]
    by_cases hn : n < 0
    · rw [if_pos hn]
      simp
      omega
    · rw [if_neg hn]
      obtain ⟨c, cs, hc, _⟩ := natChars_head n.toNat
      rw [hc]
      simp
      omega
  | str s =>
    rw [jsonFuel, stringifyChars_str]
    simp
    omega
  | arr xs =>
    rw [jsonFuel, stringifyChars_arr]
    have h := itemsFuel_le xs
    simp only [List.length_cons, List.length_append, List.length_singleton]
    omega
  | obj fs =>
    rw [jsonFuel, stringifyChars_obj]
    have h := fieldsFuel_le fs
    simp only [List.length_cons, List.length_append, List.length_singleton]
    omega

/-- Fuel bound for array items. -/
theorem itemsFuel_le (xs : List Json) :
    itemsFuel xs ≤ 2 * (stringifyArrItems xs).length + 1 := by
  cases xs with
  | nil => simp [itemsFuel]
  | cons x xs' =>
    rw [itemsFuel, stringifyArrItems_cons]
    have hx := jsonFuel_le x
    cases xs' with
    | nil =>
      rw [show stringifyArrRest [] = [] from rfl, itemsFuel]
      simp
      omega
    | cons y ys =>
      have ht := itemsFuel_le (y :: ys)
      have hl := stringifyArrRest_length y ys
      simp only [List.length_append]
      omega

/-- Fuel bound for object fields. -/
theorem fieldsFuel_le (fs : List (String × Json)) :
    fieldsFuel fs ≤ 2 * (stringifyObjItems fs).length + 1 := by
  cases fs with
  | nil => simp [fieldsFuel]
  | cons g fs' =>
    obtain ⟨k, v⟩ := g
    rw [fieldsFuel, stringifyObjItems_cons]
    have hv := jsonFuel_le v
    cases fs' with
    | nil =>
      rw [show stringifyObjRest [] = [] from rfl, fieldsFuel]
      simp
      omega
    | cons g2 fs2 =>
      have ht := fieldsFuel_le (g2 :: fs2)
      have hl := stringifyObjRest_length g2 fs2
      simp only [List.length_append, List.length_cons]
      omega

end

/-- The platform pair round-trips: parsing serialized output recovers the
value. -/
theorem Json.parse_stringify (j : Json) : Json.parse (Json.stringify j) = some j := by
  rw [Json.parse, Json.stringify]
  have h := parseVal_stringify j (2 * (Json.stringifyChars j).length + 1) []
    (by have := jsonFuel_le j; omega) trivial
  rw [List.append_nil] at h
  rw [show (String.mk (Json.stringifyChars j)).length = (Json.stringifyChars j).length from rfl]
  rw [show (String.mk (Json.stringifyChars j)).data = Json.stringifyChars j from rfl]
  rw [h]
  simp [skipWs]

/-- Decoding an encoded history entry recovers it: the two properties are
read back off the serialized object, absent ones as `undefined`. -/
theorem decodeMessage_toJson (m : Message) : decodeMessage (Message.toJson m) = .ok m := by
  obtain ⟨r, c⟩ := m
  cases r with
  | undefined =>
    cases c with
    | undefined => rfl
    | json jc =>
      rw [Message.toJson]
      rw [decodeMessage.eq_def]
      simp +decide [jsProp, List.lookup]
  | json jr =>
    cases c with
    | undefined =>
      rw [Message.toJson]
      rw [decodeMessage.eq_def]
      simp +decide [jsProp, List.lookup]
    | json jc =>
      rw [Message.toJson]
      rw [decodeMessage.eq_def]
      simp +decide [jsProp, List.lookup]

/-- Decoding an encoded history recovers every entry in order. -/
theorem decodeMessages_toJson (history : List Message) :
    decodeMessages (messagesToJson history) = .ok history := by
  rw [messagesToJson, decodeMessages]
  induction history with
  | nil => rfl
  | cons m t ih =>
    simp only [List.map_cons, List.mapM_cons, decodeMessage_toJson, ih]
    rfl

/-- A serialized history is a non-empty string (it starts with the array
bracket), so the load-time truthiness check passes. -/
theorem saveHistory_ne_empty (history : List Message) :
    Json.stringify (messagesToJson history) ≠ "" := by
  rw [Json.stringify, messagesToJson, stringifyChars_arr]
  intro h
  have := congrArg String.data h
  simp at this

/-- The Transcript Store round trip: loading immediately after a save
yields exactly the saved history. -/
theorem loadHistory_saveHistory (history : List Message) :
    loadHistoryFromLocalStorage (saveHistoryToLocalStorage history) = .ok history := by
  rw [saveHistoryToLocalStorage, loadHistoryFromLocalStorage]
  rw [if_neg (saveHistory_ne_empty history)]
  simp only [Json.parse_stringify]
  exact decodeMessages_toJson history

/-!
Invariants of the reachable session states: an in-flight turn keeps the
submit affordance disabled; the in-memory history carries only the
controller's own `user`/`assistant` roles; the in-memory history is
exactly the `user`/`assistant` subsequence of the rendered transcript; and
the durable slot holds nothing or a serialized history of the same shape.
-/

/-- Every entry carries the controller's `user` or `assistant` role. -/
def rolesOk (history : List Message) : Prop :=
  ∀ m ∈ history, m.isUserOrAssistant = true

/-- The slot is absent or holds a serialized controller history. -/
def storageOk (slot : Option String) : Prop :=
  slot = none ∨ ∃ h, rolesOk h ∧ slot = saveHistoryToLocalStorage h

/-- The controller's state invariant. -/
def SessionInv (st : SessionState) : Prop :=
  (st.pending = true → st.sendButtonDisabled = true) ∧
    rolesOk st.chatHistory ∧
    st.chatHistory = st.rendered.filter Message.isUserOrAssistant ∧
    storageOk st.storage

/-- The user message the submit handler pushes is in the outbound
subsequence. -/
theorem userMessage_isUA (s : String) :
    Message.isUserOrAssistant ⟨userRole, .json (.str s)⟩ = true := by
  simp [Message.isUserOrAssistant, userRole]

/-- The assistant message the success path pushes is in the outbound
subsequence. -/
theorem assistantMessage_isUA (v : JsVal) :
    Message.isUserOrAssistant ⟨assistantRole, v⟩ = true := by
  simp [Message.isUserOrAssistant, assistantRole]

/-- The error entry the failure path renders is not in the outbound
subsequence. -/
theorem errorMessage_not_isUA (v : JsVal) :
    Message.isUserOrAssistant ⟨errorRole, v⟩ = false := by
  simp [Message.isUserOrAssistant, errorRole]

/-- Failure outcomes of a chat turn: a non-2xx response or a transport
rejection. -/
def NetOutcome.isFailure : NetOutcome → Prop
  | .response status _ => responseOk status = false
  | .transportFailure _ => True

/-- Reduction of the submit handler on blank input: a silent no-op. -/
theorem handleFormSubmit_blank (st : SessionState) (h : jsTrim st.inputValue = "") :
    handleFormSubmit st = (st, none) := by
  rw [handleFormSubmit]
  simp [h]

/-- Reduction of the submit handler on non-blank input: push and render
the user turn, clear the input, enter waiting, issue the request. -/
theorem handleFormSubmit_go (st : SessionState) (h : jsTrim st.inputValue ≠ "") :
    handleFormSubmit st =
      ({ st with
          chatHistory := st.chatHistory ++ [⟨userRole, .json (.str (jsTrim st.inputValue))⟩],
          rendered := st.rendered ++ [⟨userRole, .json (.str (jsTrim st.inputValue))⟩],
          inputValue := "",
          sendButtonDisabled := true,
          typingIndicatorHidden := false,
          pending := true },
        some ⟨st.chatHistory ++ [⟨userRole, .json (.str (jsTrim st.inputValue))⟩]⟩) := by
  rw [handleFormSubmit]
  simp [h, renderMessage, setUiWaitingState]

/-- Reduction of the resolution on any failed call: the catch branch
renders the fixed error text and the `finally` branch releases the waiting
state; history and slot are untouched. -/
theorem resolveChatTurn_failure (st : SessionState) (o : NetOutcome) (h : o.isFailure) :
    resolveChatTurn st o =
      { st with
          rendered := st.rendered ++ [⟨errorRole, .json (.str connectErrorText)⟩],
          sendButtonDisabled := false,
          typingIndicatorHidden := true,
          pending := false } := by
  cases o with
  | response status body =>
    have hf : responseOk status = false := h
    rw [resolveChatTurn]
    simp [hf, renderMessage, setUiWaitingState]
  | transportFailure d =>
    rw [resolveChatTurn]
    simp [renderMessage, setUiWaitingState]

/-- Reduction of the resolution on a 2xx response whose body does not
parse, or parses to `null`: `response.json()` rejects, or destructuring
`{response}` throws, and the catch branch runs. -/
theorem resolveChatTurn_badBody (st : SessionState) (status : Nat) (body : String)
    (hok : responseOk status = true)
    (h : Json.parse body = none ∨ Json.parse body = some .null) :
    resolveChatTurn st (.response status body) =
      { st with
          rendered := st.rendered ++ [⟨errorRole, .json (.str connectErrorText)⟩],
          sendButtonDisabled := false,
          typingIndicatorHidden := true,
          pending := false } := by
  rw [resolveChatTurn]
  rcases h with h | h <;> simp [hok, h, renderMessage, setUiWaitingState]

/-- Reduction of the resolution on a successful call: push and render the
assistant turn — content whatever the `response` property holds — then
save, then release the waiting state. -/
theorem resolveChatTurn_success (st : SessionState) (status : Nat) (body : String)
    (j : Json) (hok : responseOk status = true) (hp : Json.parse body = some j)
    (hnn : j ≠ .null) :
    resolveChatTurn st (.response status body) =
      { st with
          chatHistory := st.chatHistory ++ [⟨assistantRole, jsProp j "response"⟩],
          rendered := st.rendered ++ [⟨assistantRole, jsProp j "response"⟩],
          storage := saveHistoryToLocalStorage
            (st.chatHistory ++ [⟨assistantRole, jsProp j "response"⟩]),
          sendButtonDisabled := false,
          typingIndicatorHidden := true,
          pending := false } := by
  rw [resolveChatTurn]
  cases j with
  | null => exact absurd rfl hnn
  | bool b => simp [hok, hp, renderMessage, setUiWaitingState]
  | num n => simp [hok, hp, renderMessage, setUiWaitingState]
  | str s => simp [hok, hp, renderMessage, setUiWaitingState]
  | arr xs => simp [hok, hp, renderMessage, setUiWaitingState]
  | obj fs => simp [hok, hp, renderMessage, setUiWaitingState]


/-- The invariant holds in every reachable session state. -/
theorem sessionInv_reachable {st : SessionState} (h : Reachable st) : SessionInv st := by
  induction h with
  | init =>
    refine ⟨by simp [initialState, freshPageState], ?_, by simp [initialState, freshPageState],
      Or.inl rfl⟩
    intro m hm
    simp [initialState, freshPageState] at hm
  | @typeInput s st hst ih =>
    obtain ⟨h1, h2, h3, h4⟩ := ih
    exact ⟨h1, h2, h3, h4⟩
  | @submit st hst ih =>
    obtain ⟨h1, h2, h3, h4⟩ := ih
    rw [submitAction]
    by_cases hd : st.sendButtonDisabled = true
    · simp only [hd, if_true]
      exact ⟨h1, h2, h3, h4⟩
    · simp only [Bool.not_eq_true] at hd
      simp only [hd, Bool.false_eq_true, if_false]
      by_cases hb : jsTrim st.inputValue = ""
      · rw [handleFormSubmit_blank st hb]
        exact ⟨h1, h2, h3, h4⟩
      · rw [handleFormSubmit_go st hb]
        refine ⟨fun _ => rfl, ?_, ?_, h4⟩
        · intro m hm
          rcases List.mem_append.mp hm with hm | hm
          · exact h2 m hm
          · rw [List.mem_singleton.mp hm]
            exact userMessage_isUA _
        · simp only [List.filter_append, ← h3]
          simp [List.filter, userMessage_isUA]
  | @resolve outcome st hst hpend ih =>
    obtain ⟨h1, h2, h3, h4⟩ := ih
    have herr : SessionInv { st with
        rendered := st.rendered ++ [⟨errorRole, .json (.str connectErrorText)⟩],
        sendButtonDisabled := false, typingIndicatorHidden := true, pending := false } := by
      refine ⟨by simp, h2, ?_, h4⟩
      simp only [List.filter_append]
      simp [List.filter, errorMessage_not_isUA, h3]
    cases outcome with
    | transportFailure d =>
      rw [resolveChatTurn_failure st (.transportFailure d) trivial]
      exact herr
    | response status body =>
      by_cases hok : responseOk status = true
      · cases hp : Json.parse body with
        | none =>
          rw [resolveChatTurn_badBody st status body hok (Or.inl hp)]
          exact herr
        | some j =>
          by_cases hnn : j = .null
          · subst hnn
            rw [resolveChatTurn_badBody st status body hok (Or.inr hp)]
            exact herr
          · rw [resolveChatTurn_success st status body j hok hp hnn]
            have hroles : rolesOk (st.chatHistory ++ [⟨assistantRole, jsProp j "response"⟩]) := by
              intro m hm
              rcases List.mem_append.mp hm with hm | hm
              · exact h2 m hm
              · rw [List.mem_singleton.mp hm]
                exact assistantMessage_isUA _
            refine ⟨by simp, hroles, ?_, Or.inr ⟨_, hroles, rfl⟩⟩
            simp only [List.filter_append, ← h3]
            simp [List.filter, assistantMessage_isUA]
      · simp only [Bool.not_eq_true] at hok
        rw [resolveChatTurn_failure st (.response status body) hok]
        exact herr
  | @newChat st hst ih =>
    obtain ⟨h1, _, _, _⟩ := ih
    refine ⟨by simp [handleNewChat]; exact fun hp => h1 hp, ?_, by simp [handleNewChat], Or.inl rfl⟩
    intro m hm
    simp [handleNewChat] at hm
  | @reload st st' hst hload ih =>
    obtain ⟨_, _, _, h4⟩ := ih
    rcases h4 with hnone | ⟨hh, hroles, hsome⟩
    · rw [pageLoad, hnone] at hload
      simp only [loadHistoryFromLocalStorage] at hload
      injection hload with hload
      subst hload
      refine ⟨by simp [freshPageState], ?_, by simp [freshPageState], Or.inl rfl⟩
      intro m hm
      simp [freshPageState] at hm
    · rw [pageLoad, hsome, loadHistory_saveHistory] at hload
      injection hload with hload
      subst hload
      refine ⟨by simp [freshPageState], hroles, ?_, Or.inr ⟨hh, hroles, rfl⟩⟩
      simp only [freshPageState]
      exact (List.filter_eq_self.mpr hroles).symm

/-- Unfolding of the string coercion on a string value. -/
theorem jsJsonToString_str (s : String) : jsJsonToString (.str s) = s := by
  rw [jsJsonToString.eq_def]

/-- The Session UI State reads `Idle`: enabled send button, hidden typing
indicator, no in-flight call. -/
def uiIdle (st : SessionState) : Prop :=
  st.sendButtonDisabled = false ∧ st.typingIndicatorHidden = true ∧ st.pending = false

/-! Claim verdicts. -/

/-- Claim C1, counterexample: a stored value that is not parseable JSON
makes `loadHistoryFromLocalStorage` propagate the parse exception instead
of returning the empty transcript the claim promises. -/
theorem c1_counterexample :
    loadHistoryFromLocalStorage (some "oops") = .error .syntaxError := rfl

/-- Claim C1 as amended: an absent slot, and the empty-string value, load
as the empty transcript; but a stored value that fails to parse as JSON
raises — the `SyntaxError` of `JSON.parse` propagates to the caller, with
no empty-transcript fallback. -/
theorem c1_load_amended :
    loadHistoryFromLocalStorage none = .ok [] ∧
    loadHistoryFromLocalStorage (some "") = .ok [] ∧
    (∀ s : String, s ≠ "" → Json.parse s = none →
      loadHistoryFromLocalStorage (some s) = .error .syntaxError) := by
  refine ⟨rfl, rfl, fun s hne hp => ?_⟩
  rw [loadHistoryFromLocalStorage, if_neg hne, hp]

/-- Witness for the amended C1 at the concrete stored value `"oops"`. -/
theorem c1_witness :
    ("oops" : String) ≠ "" ∧ Json.parse "oops" = none ∧
    loadHistoryFromLocalStorage (some "oops") = .error .syntaxError :=
  ⟨by decide, rfl, c1_load_amended.2.2 "oops" (by decide) rfl⟩

/-- Claim C2, counterexample: after submitting `"hi"`, a transport failure
leaves the in-memory transcript exactly as it was — the single user turn —
so no error-role message is appended to it, contrary to the claim. -/
theorem c2_counterexample :
    (resolveChatTurn (submitAction (setInput "hi" initialState)).1
        (.transportFailure "network down")).chatHistory
      = (submitAction (setInput "hi" initialState)).1.chatHistory ∧
    (submitAction (setInput "hi" initialState)).1.chatHistory
      = [⟨userRole, .json (.str "hi")⟩] := ⟨rfl, rfl⟩

/-- Claim C2 as amended: on every failed chat turn the fixed
connectivity-trouble message is rendered — appended to the chat window —
but not appended to the in-memory transcript; the durable slot is left
unchanged, and the submit affordance is re-enabled. -/
theorem c2_failure_amended (st : SessionState) (o : NetOutcome) (h : o.isFailure) :
    (resolveChatTurn st o).chatHistory = st.chatHistory ∧
    (resolveChatTurn st o).storage = st.storage ∧
    (resolveChatTurn st o).rendered
      = st.rendered ++ [⟨errorRole, .json (.str connectErrorText)⟩] ∧
    (resolveChatTurn st o).sendButtonDisabled = false := by
  rw [resolveChatTurn_failure st o h]
  exact ⟨rfl, rfl, rfl, rfl⟩

/-- Witness for the amended C2 at a concrete transport failure. -/
theorem c2_witness :
    (NetOutcome.transportFailure "network down").isFailure ∧
    (resolveChatTurn initialState (.transportFailure "network down")).rendered
      = initialState.rendered ++ [⟨errorRole, .json (.str connectErrorText)⟩] ∧
    (resolveChatTurn initialState (.transportFailure "network down")).storage
      = initialState.storage :=
  ⟨trivial, (c2_failure_amended initialState (.transportFailure "network down") trivial).2.2.1,
    (c2_failure_amended initialState (.transportFailure "network down") trivial).2.1⟩

/-- Claim C3: in any reachable state with an in-flight turn, a submit
gesture is a complete no-op — the state (hence the transcript) is
unchanged and no request is issued — because the handler left the submit
button disabled for the whole flight and a disabled default button
dispatches no submit event. -/
theorem c3_mutual_exclusion (st : SessionState) (h : Reachable st)
    (hp : st.pending = true) : submitAction st = (st, none) := by
  have hd := (sessionInv_reachable h).1 hp
  rw [submitAction, if_pos hd]

/-- Witness for C3 at the reachable state reached by typing `"hi"` and
submitting once. -/
theorem c3_witness :
    (submitAction (setInput "hi" initialState)).1.pending = true ∧
    submitAction (submitAction (setInput "hi" initialState)).1
      = ((submitAction (setInput "hi" initialState)).1, none) :=
  ⟨rfl, c3_mutual_exclusion (submitAction (setInput "hi" initialState)).1
    (Reachable.submit (Reachable.typeInput "hi" Reachable.init)) rfl⟩

/-- Claim C4: the save/load round-trip law of the Transcript Store — for
every transcript, loading right after saving yields an equal sequence. -/
theorem c4_save_load_roundtrip (T : List Message) :
    loadHistoryFromLocalStorage (saveHistoryToLocalStorage T) = .ok T :=
  loadHistory_saveHistory T

/-- Claim C6: whatever the outcome of the in-flight call — success,
protocol failure or transport failure — the resolution leaves the Session
UI State at `Idle`: the `finally` branch runs on every path. -/
theorem c6_always_idle (st : SessionState) (o : NetOutcome) :
    uiIdle (resolveChatTurn st o) :=
  ⟨rfl, rfl, rfl⟩

/-- Claim C5: a successful turn appends the user turn (at submit) then the
assistant turn (at resolution), in that order, and synchronously persists
the whole transcript: immediately afterwards the durable slot deserializes
to exactly the in-memory transcript. -/
theorem c5_success_persists (st : SessionState) (input : String) (status : Nat)
    (body : String) (j : Json) (hd : st.sendButtonDisabled = false)
    (hin : jsTrim input ≠ "") (hok : responseOk status = true)
    (hp : Json.parse body = some j) (hnn : j ≠ .null) :
    (resolveChatTurn (submitAction (setInput input st)).1 (.response status body)).chatHistory
      = st.chatHistory ++ [⟨userRole, .json (.str (jsTrim input))⟩,
          ⟨assistantRole, jsProp j "response"⟩] ∧
    loadHistoryFromLocalStorage
        (resolveChatTurn (submitAction (setInput input st)).1 (.response status body)).storage
      = .ok (resolveChatTurn (submitAction (setInput input st)).1
          (.response status body)).chatHistory := by
  have h1 : submitAction (setInput input st) = handleFormSubmit (setInput input st) := by
    rw [submitAction, if_neg (by simp [setInput, hd])]
  rw [h1, handleFormSubmit_go _ hin, resolveChatTurn_success _ status body j hok hp hnn]
  refine ⟨?_, loadHistory_saveHistory _⟩
  show (st.chatHistory ++ [⟨userRole, .json (.str (jsTrim input))⟩])
      ++ [⟨assistantRole, jsProp j "response"⟩] = _
  rw [List.append_assoc]
  rfl

/-- Witness for C5: the empty-history scenario of the spec, with the PTO
question and the canned assistant reply. -/
theorem c5_witness :
    jsTrim "What is the PTO policy?" ≠ "" ∧ responseOk 200 = true ∧
    Json.parse "\x7b\"response\":\"You accrue 15 days/year.\"\x7d"
      = some (.obj [("response", .str "You accrue 15 days/year.")]) ∧
    (resolveChatTurn (submitAction (setInput "What is the PTO policy?" initialState)).1
        (.response 200 "\x7b\"response\":\"You accrue 15 days/year.\"\x7d")).chatHistory
      = [⟨userRole, .json (.str "What is the PTO policy?")⟩,
          ⟨assistantRole, .json (.str "You accrue 15 days/year.")⟩] ∧
    loadHistoryFromLocalStorage
        (resolveChatTurn (submitAction (setInput "What is the PTO policy?" initialState)).1
          (.response 200 "\x7b\"response\":\"You accrue 15 days/year.\"\x7d")).storage
      = .ok (resolveChatTurn (submitAction (setInput "What is the PTO policy?" initialState)).1
          (.response 200 "\x7b\"response\":\"You accrue 15 days/year.\"\x7d")).chatHistory := by
  refine ⟨by decide, rfl, rfl, ?_, ?_⟩
  · have h := (c5_success_persists initialState "What is the PTO policy?" 200
      "\x7b\"response\":\"You accrue 15 days/year.\"\x7d"
      (.obj [("response", .str "You accrue 15 days/year.")]) rfl (by decide) rfl rfl
      (fun hh => Json.noConfusion hh)).1
    rw [h]
    rfl
  · exact (c5_success_persists initialState "What is the PTO policy?" 200
      "\x7b\"response\":\"You accrue 15 days/year.\"\x7d"
      (.obj [("response", .str "You accrue 15 days/year.")]) rfl (by decide) rfl rfl
      (fun hh => Json.noConfusion hh)).2

/-- Claim C7: whenever a submit issues a request, its body carries exactly
the in-memory history after the user push, which equals the
`user`/`assistant` subsequence of the rendered transcript in insertion
order; no error-role entry is ever in the payload. -/
theorem c7_request_payload (st : SessionState) (req : ChatRequest) (h : Reachable st)
    (hreq : (submitAction st).2 = some req) :
    req.messages = (submitAction st).1.chatHistory ∧
    req.messages = (submitAction st).1.rendered.filter Message.isUserOrAssistant ∧
    ∀ m ∈ req.messages, m.isUserOrAssistant = true := by
  obtain ⟨_, hroles, hfilter, _⟩ := sessionInv_reachable (Reachable.submit h)
  have hmsg : req.messages = (submitAction st).1.chatHistory := by
    rw [submitAction] at hreq ⊢
    by_cases hd : st.sendButtonDisabled = true
    · rw [if_pos hd] at hreq
      exact absurd hreq (by simp)
    · simp only [Bool.not_eq_true] at hd
      rw [if_neg (by simp [hd])] at hreq ⊢
      by_cases hb : jsTrim st.inputValue = ""
      · rw [handleFormSubmit_blank st hb] at hreq
        exact absurd hreq (by simp)
      · rw [handleFormSubmit_go st hb] at hreq ⊢
        simp only [Option.some.injEq] at hreq
        rw [← hreq]
  exact ⟨hmsg, by rw [hmsg, hfilter], by rw [hmsg]; exact hroles⟩

/-- Witness for C7 at the first submit of `"hi"` on a fresh session. -/
theorem c7_witness :
    (submitAction (setInput "hi" initialState)).2
      = some ⟨[⟨userRole, .json (.str "hi")⟩]⟩ ∧
    (⟨[⟨userRole, .json (.str "hi")⟩]⟩ : ChatRequest).messages
      = (submitAction (setInput "hi" initialState)).1.chatHistory :=
  ⟨rfl, (c7_request_payload (setInput "hi" initialState) ⟨[⟨userRole, .json (.str "hi")⟩]⟩
    (Reachable.typeInput "hi" Reachable.init) rfl).1⟩

/-- Claim C8, counterexample: submitting the FAQ form with no question
selected is not silent — the output slot is set to the prompt text
`"Please select a question."` (though indeed no request is issued). -/
theorem c8_counterexample :
    (faqSubmit ⟨"", "", "", false, "none"⟩ (.transportFailure "x")).1.responseOutput
      = "Please select a question." ∧
    (faqSubmit ⟨"", "", "", false, "none"⟩ (.transportFailure "x")).2 = none := ⟨rfl, rfl⟩

/-- Claim C8 as amended: a blank or whitespace-only chat input is a silent
no-op — state unchanged, no request; an unselected FAQ option likewise
issues no request and touches no other state, but writes the prompt text
`"Please select a question."` into the output slot. -/
theorem c8_blank_amended :
    (∀ st : SessionState, jsTrim st.inputValue = "" → submitAction st = (st, none)) ∧
    (∀ (fst : FaqState) (o : NetOutcome), fst.questionValue = "" →
      faqSubmit fst o = ({ fst with responseOutput := "Please select a question." }, none)) := by
  constructor
  · intro st hb
    rw [submitAction]
    by_cases hd : st.sendButtonDisabled = true
    · rw [if_pos hd]
    · simp only [Bool.not_eq_true] at hd
      rw [if_neg (by simp [hd])]
      exact handleFormSubmit_blank st hb
  · intro fst o hq
    rw [faqSubmit.eq_def, if_pos hq]

/-- Witness for the amended C8: whitespace-only chat input, and an
unselected FAQ option. -/
theorem c8_witness :
    jsTrim (setInput "   " initialState).inputValue = "" ∧
    submitAction (setInput "   " initialState) = (setInput "   " initialState, none) ∧
    (⟨"", "srv", "old", false, "none"⟩ : FaqState).questionValue = "" ∧
    faqSubmit ⟨"", "srv", "old", false, "none"⟩ (.transportFailure "x")
      = ({ questionValue := "", mcpServerValue := "srv",
            responseOutput := "Please select a question.",
            sendButtonDisabled := false, processingDisplay := "none" }, none) :=
  ⟨by decide, c8_blank_amended.1 (setInput "   " initialState) (by decide), rfl,
    c8_blank_amended.2 ⟨"", "srv", "old", false, "none"⟩ (.transportFailure "x") rfl⟩

/-- Claim C9, counterexample: a non-2xx FAQ response whose error body
carries a present but empty `detail` field displays the generic status
message, not the `detail` value the claim promises for every present
field. -/
theorem c9_counterexample :
    Json.parse "\x7b\"detail\":\"\"\x7d" = some (.obj [("detail", .str "")]) ∧
    jsProp (.obj [("detail", .str "")]) "detail" = .json (.str "") ∧
    (faqSubmit ⟨"q1", "", "", false, "none"⟩
        (.response 400 "\x7b\"detail\":\"\"\x7d")).1.responseOutput
      = "An error occurred: HTTP error! status: 400" := ⟨rfl, rfl, rfl⟩

/-- Claim C9 as amended: for a non-2xx FAQ response whose body parses as
JSON, the displayed message is the `String(...)` coercion of the `detail`
property when that property is truthy — the `detail` value itself when it
is a (non-empty) string — and otherwise, when the body parsed to a
non-`null` value, the generic status line; a body parsing to `null` makes
the `errorData.detail` access throw, and the `TypeError` description is
displayed; a body that does not parse as JSON displays the
`response.json()` rejection description; a transport failure displays its
description. Every displayed message is prefixed by the fixed
`"An error occurred: "` wrapper, and no rejection escapes the handler. -/
theorem c9_faq_errors_amended :
    (∀ (st : FaqState) (status : Nat) (body : String) (j : Json),
      st.questionValue ≠ "" → responseOk status = false → Json.parse body = some j →
      jsTruthy (jsProp j "detail") = true →
      (faqSubmit st (.response status body)).1.responseOutput
        = "An error occurred: " ++ jsToString (jsProp j "detail")) ∧
    (∀ s : String, jsToString (.json (.str s)) = s) ∧
    (∀ (st : FaqState) (status : Nat) (body : String) (j : Json),
      st.questionValue ≠ "" → responseOk status = false → Json.parse body = some j →
      j ≠ .null → jsTruthy (jsProp j "detail") = false →
      (faqSubmit st (.response status body)).1.responseOutput
        = "An error occurred: " ++ ("HTTP error! status: " ++ toString status)) ∧
    (∀ (st : FaqState) (status : Nat) (body : String),
      st.questionValue ≠ "" → responseOk status = false → Json.parse body = some .null →
      (faqSubmit st (.response status body)).1.responseOutput
        = "An error occurred: " ++ nullDetailErrorText) ∧
    (∀ (st : FaqState) (status : Nat) (body : String),
      st.questionValue ≠ "" → responseOk status = false → Json.parse body = none →
      (faqSubmit st (.response status body)).1.responseOutput
        = "An error occurred: " ++ jsonParseErrorText) ∧
    (∀ (st : FaqState) (d : String), st.questionValue ≠ "" →
      (faqSubmit st (.transportFailure d)).1.responseOutput
        = "An error occurred: " ++ d) := by
  refine ⟨?_, ?_, ?_, ?_, ?_, ?_⟩
  · intro st status body j hq hbad hp ht
    rw [faqSubmit.eq_def, if_neg hq]
    simp only [hbad, Bool.false_eq_true, if_false, faqNon2xxMessage, hp]
    cases j with
    | null => exact absurd ht (by decide)
    | bool b => simp [ht]
    | num n => simp [ht]
    | str s2 => simp [ht]
    | arr xs => simp [ht]
    | obj fs => simp [ht]
  · intro s
    exact jsJsonToString_str s
  · intro st status body j hq hbad hp hnn hfalse
    rw [faqSubmit.eq_def, if_neg hq]
    simp only [hbad, Bool.false_eq_true, if_false, faqNon2xxMessage, hp]
    cases j with
    | null => exact absurd rfl hnn
    | bool b => rw [if_neg (by simp [hfalse])]
    | num n => rw [if_neg (by simp [hfalse])]
    | str s2 => rw [if_neg (by simp [hfalse])]
    | arr xs => rw [if_neg (by simp [hfalse])]
    | obj fs => rw [if_neg (by simp [hfalse])]
  · intro st status body hq hbad hp
    rw [faqSubmit.eq_def, if_neg hq]
    simp only [hbad, Bool.false_eq_true, if_false, faqNon2xxMessage, hp]
  · intro st status body hq hbad hp
    rw [faqSubmit.eq_def, if_neg hq]
    simp only [hbad, Bool.false_eq_true, if_false, faqNon2xxMessage, hp]
  · intro st d hq
    rw [faqSubmit.eq_def, if_neg hq]

/-- Witness for the amended C9: a truthy string detail, a truthy numeric
detail, the string-coercion identity, an absent detail, a `null` error
body, an unparseable error body, and a transport failure, each at
concrete inputs. -/
theorem c9_witness :
    (faqSubmit ⟨"q1", "", "", false, "none"⟩
        (.response 404 "\x7b\"detail\":\"Unknown question\"\x7d")).1.responseOutput
      = "An error occurred: Unknown question" ∧
    (faqSubmit ⟨"q1", "", "", false, "none"⟩
        (.response 403 "\x7b\"detail\":5\x7d")).1.responseOutput
      = "An error occurred: 5" ∧
    jsToString (.json (.str "Unknown question")) = "Unknown question" ∧
    (faqSubmit ⟨"q1", "", "", false, "none"⟩
        (.response 500 "\x7b\"code\":3\x7d")).1.responseOutput
      = "An error occurred: HTTP error! status: 500" ∧
    (faqSubmit ⟨"q1", "", "", false, "none"⟩
        (.response 400 "null")).1.responseOutput
      = "An error occurred: " ++ nullDetailErrorText ∧
    (faqSubmit ⟨"q1", "", "", false, "none"⟩
        (.response 400 "not json")).1.responseOutput
      = "An error occurred: " ++ jsonParseErrorText ∧
    (faqSubmit ⟨"q1", "", "", false, "none"⟩
        (.transportFailure "connection refused")).1.responseOutput
      = "An error occurred: connection refused" := by
  refine ⟨?_, ?_, ?_, ?_, ?_, ?_, ?_⟩
  · exact c9_faq_errors_amended.1 ⟨"q1", "", "", false, "none"⟩ 404
      "\x7b\"detail\":\"Unknown question\"\x7d" (.obj [("detail", .str "Unknown question")])
      (by decide) rfl rfl rfl
  · exact c9_faq_errors_amended.1 ⟨"q1", "", "", false, "none"⟩ 403
      "\x7b\"detail\":5\x7d" (.obj [("detail", .num 5)])
      (by decide) rfl rfl rfl
  · exact c9_faq_errors_amended.2.1 "Unknown question"
  · exact c9_faq_errors_amended.2.2.1 ⟨"q1", "", "", false, "none"⟩ 500
      "\x7b\"code\":3\x7d" (.obj [("code", .num 3)]) (by decide) rfl rfl
      (fun hh => Json.noConfusion hh) rfl
  · exact c9_faq_errors_amended.2.2.2.1 ⟨"q1", "", "", false, "none"⟩ 400 "null"
      (by decide) rfl rfl
  · exact c9_faq_errors_amended.2.2.2.2.1 ⟨"q1", "", "", false, "none"⟩ 400 "not json"
      (by decide) rfl rfl
  · exact c9_faq_errors_amended.2.2.2.2.2 ⟨"q1", "", "", false, "none"⟩ "connection refused"
      (by decide)

/-- Claim C10, counterexample: a 2xx chat response whose body is the JSON
text `null` — a body without a `response` field — appends nothing:
destructuring `{response}` from `null` throws, and the turn takes the
error path instead of producing an assistant turn. -/
theorem c10_counterexample :
    responseOk 200 = true ∧ Json.parse "null" = some .null ∧
    (resolveChatTurn (submitAction (setInput "hi" initialState)).1
        (.response 200 "null")).chatHistory
      = (submitAction (setInput "hi" initialState)).1.chatHistory := ⟨rfl, rfl, rfl⟩

/-- Claim C10 as amended: on every 2xx chat response whose body parses as
JSON to a non-`null` value, the controller appends and persists an
assistant message whose content is whatever the body's `response` property
holds — with no validation that the property exists or is a non-empty
string; a missing property yields an assistant turn with `undefined`
content, still appended and persisted. -/
theorem c10_assistant_amended (st : SessionState) (status : Nat) (body : String)
    (j : Json) (hok : responseOk status = true) (hp : Json.parse body = some j)
    (hnn : j ≠ .null) :
    (resolveChatTurn st (.response status body)).chatHistory
      = st.chatHistory ++ [⟨assistantRole, jsProp j "response"⟩] ∧
    (resolveChatTurn st (.response status body)).storage
      = saveHistoryToLocalStorage
          (st.chatHistory ++ [⟨assistantRole, jsProp j "response"⟩]) := by
  rw [resolveChatTurn_success st status body j hok hp hnn]
  exact ⟨rfl, rfl⟩

/-- Witness for the amended C10: the empty-object body `{}` — no
`response` field — still appends and persists an assistant turn, with
`undefined` content. -/
theorem c10_witness :
    responseOk 200 = true ∧ Json.parse "\x7b\x7d" = some (.obj []) ∧
    jsProp (.obj []) "response" = .undefined ∧
    (resolveChatTurn initialState (.response 200 "\x7b\x7d")).chatHistory
      = [⟨assistantRole, .undefined⟩] ∧
    (resolveChatTurn initialState (.response 200 "\x7b\x7d")).storage
      = saveHistoryToLocalStorage [⟨assistantRole, .undefined⟩] := by
  refine ⟨rfl, rfl, rfl, ?_, ?_⟩
  · have h := (c10_assistant_amended initialState 200 "\x7b\x7d" (.obj []) rfl rfl
      (fun hh => Json.noConfusion hh)).1
    rw [h]
    rfl
  · have h := (c10_assistant_amended initialState 200 "\x7b\x7d" (.obj []) rfl rfl
      (fun hh => Json.noConfusion hh)).2
    rw [h]
    rfl
